import Mathlib

/-!
Verification of the orchestration-and-ingestion pipeline of the
fixed-wing-drone-orienteering repository.

The Python sources are shallowly embedded: Python strings become `List Char`
(written `Str` below) so that comparisons, splitting and sorting are fully
executable and kernel-checkable; the SQLite database becomes an explicit list
of tables; fallible operations return `Except`.

Embedded modules:
* `UpdateDb`      — python-scripts/update_db.py (result-document ingestion)
* `ScriptGen`     — python-scripts/script_generator.py (run-matrix generation)
* `BatchRunner`   — python-scripts/batch_runner.py (batch execution driver)
* `Queries`       — final-results/queries.py (SQL query builders)
-/

/-- Python strings are modelled as lists of characters, compared by code point
exactly as Python compares `str` values. -/
abbrev Str := List Char

/-- Lexicographic comparison of two strings by code point, mirroring Python's
`<=` on `str` restricted to what `list.sort` needs. -/
def lexLe : Str → Str → Bool
  | [], _ => true
  | _ :: _, [] => false
  | a :: as, b :: bs =>
    if a < b then true
    else if b < a then false
    else lexLe as bs

/-- The sorting relation used to model Python's `list.sort()` on strings. -/
def keyLe (a b : Str) : Prop := lexLe a b = true

instance : DecidableRel keyLe := fun a b => inferInstanceAs (Decidable (lexLe a b = true))

theorem lexLe_cons_iff (a b : Char) (as bs : Str) :
    lexLe (a :: as) (b :: bs) = true ↔ a < b ∨ (a = b ∧ lexLe as bs = true) := by
  simp only [lexLe]
  split_ifs with h1 h2
  · simp [h1]
  · simp [h1, ne_of_gt h2]
  · have heq : a = b := le_antisymm (not_lt.mp h2) (not_lt.mp h1)
    simp [h1, heq]

theorem lexLe_total : ∀ a b : Str, lexLe a b = true ∨ lexLe b a = true := by
  intro a
  induction a with
  | nil => intro b; left; rfl
  | cons x xs ih =>
    intro b
    cases b with
    | nil => right; rfl
    | cons y ys =>
      rcases lt_trichotomy x y with h | h | h
      · left; rw [lexLe_cons_iff]; exact Or.inl h
      · subst h
        rcases ih ys with h' | h'
        · left; rw [lexLe_cons_iff]; exact Or.inr ⟨rfl, h'⟩
        · right; rw [lexLe_cons_iff]; exact Or.inr ⟨rfl, h'⟩
      · right; rw [lexLe_cons_iff]; exact Or.inl h

theorem lexLe_trans : ∀ a b c : Str, lexLe a b = true → lexLe b c = true → lexLe a c = true := by
  intro a
  induction a with
  | nil => intro b c _ _; rfl
  | cons x xs ih =>
    intro b c hab hbc
    cases b with
    | nil => simp [lexLe] at hab
    | cons y ys =>
      cases c with
      | nil => simp [lexLe] at hbc
      | cons z zs =>
        rw [lexLe_cons_iff] at hab hbc ⊢
        rcases hab with hxy | ⟨rfl, hab'⟩
        · rcases hbc with hyz | ⟨rfl, _⟩
          · exact Or.inl (lt_trans hxy hyz)
          · exact Or.inl hxy
        · rcases hbc with hyz | ⟨rfl, hbc'⟩
          · exact Or.inl hyz
          · exact Or.inr ⟨rfl, ih ys zs hab' hbc'⟩

theorem lexLe_antisymm : ∀ a b : Str, lexLe a b = true → lexLe b a = true → a = b := by
  intro a
  induction a with
  | nil =>
    intro b _ hba
    cases b with
    | nil => rfl
    | cons y ys => simp [lexLe] at hba
  | cons x xs ih =>
    intro b hab hba
    cases b with
    | nil => simp [lexLe] at hab
    | cons y ys =>
      rw [lexLe_cons_iff] at hab hba
      rcases hab with hxy | ⟨rfl, hab'⟩
      · rcases hba with hyx | ⟨rfl, _⟩
        · exact absurd hyx (asymm hxy)
        · exact absurd hxy (lt_irrefl _)
      · rcases hba with hyx | ⟨_, hba'⟩
        · exact absurd hyx (lt_irrefl _)
        · rw [ih ys hab' hba']

instance : IsTrans Str keyLe := ⟨lexLe_trans⟩

instance : IsTotal Str keyLe := ⟨lexLe_total⟩

instance : IsAntisymm Str keyLe := ⟨lexLe_antisymm⟩

/-- Model of Python's `list.sort()` on a list of strings. -/
def sortKeys (l : List Str) : List Str := List.insertionSort keyLe l

/-- The relation used by `list.sort(key=operator.itemgetter(0))`. -/
def pairLe (p q : Str × Str) : Prop := keyLe p.1 q.1

instance : DecidableRel pairLe := fun p q => inferInstanceAs (Decidable (keyLe p.1 q.1))

instance : IsTrans (Str × Str) pairLe := ⟨fun _ _ _ h h' => lexLe_trans _ _ _ h h'⟩

instance : IsTotal (Str × Str) pairLe := ⟨fun p q => lexLe_total p.1 q.1⟩

/-- Model of Python's stable `list.sort(key=operator.itemgetter(0))` on
key/value pairs. -/
def sortPairs (l : List (Str × Str)) : List (Str × Str) := List.insertionSort pairLe l

/-- Model of Python's `s.split(sep)` for a one-character separator: splits at
every occurrence of the separator, keeping empty pieces. -/
def splitOnChar (sep : Char) : Str → List Str
  | [] => [[]]
  | c :: rest =>
    match splitOnChar sep rest with
    | [] => [[]]
    | t :: ts => if c = sep then [] :: t :: ts else (c :: t) :: ts

theorem splitOnChar_ne_nil (sep : Char) (cs : Str) : splitOnChar sep cs ≠ [] := by
  cases cs with
  | nil => simp [splitOnChar]
  | cons c rest =>
    simp only [splitOnChar]
    split
    · simp
    · split <;> simp

theorem splitOnChar_sep_free (sep : Char) (cs : Str) (h : ∀ c ∈ cs, c ≠ sep) :
    splitOnChar sep cs = [cs] := by
  induction cs with
  | nil => rfl
  | cons c rest ih =>
    have hc : c ≠ sep := h c (List.mem_cons_self _ _)
    have ih' := ih (fun x hx => h x (List.mem_cons_of_mem _ hx))
    simp [splitOnChar, ih', hc]

theorem splitOnChar_append (sep : Char) (xs cs : Str) (t : Str) (ts : List Str)
    (h : ∀ c ∈ xs, c ≠ sep) (hcs : splitOnChar sep cs = t :: ts) :
    splitOnChar sep (xs ++ cs) = (xs ++ t) :: ts := by
  induction xs with
  | nil => simpa using hcs
  | cons x xs ih =>
    have hx : x ≠ sep := h x (List.mem_cons_self _ _)
    have ih' := ih (fun c hc => h c (List.mem_cons_of_mem _ hc))
    simp [splitOnChar, ih', hx]

theorem splitOnChar_sep_cons (sep : Char) (cs : Str) :
    splitOnChar sep (sep :: cs) = [] :: splitOnChar sep cs := by
  simp only [splitOnChar]
  cases h : splitOnChar sep cs with
  | nil => exact absurd h (splitOnChar_ne_nil sep cs)
  | cons t ts => simp

/-- Decimal digit character, used to model Python's `str(n)` for naturals. -/
def digitChar (d : Nat) : Char := Char.ofNat (48 + d)

/-- Numeric value of a decimal digit character. -/
def charVal (c : Char) : Nat := c.toNat - 48

/-- Model of Python's `str(n)` for a non-negative integer: the decimal
representation of `n` as a string. -/
def natRepr (n : Nat) : Str :=
  if n = 0 then ['0'] else ((Nat.digits 10 n).map digitChar).reverse

/-- Model of Python's `int(s)` restricted to strings of decimal digits (the
only shape that reaches it in this pipeline); any other input makes `int`
raise, modelled as `none`. -/
def parsePyNat (cs : Str) : Option Nat :=
  if cs = [] then none
  else if cs.all Char.isDigit then
    some (Nat.ofDigits 10 ((cs.map charVal).reverse))
  else none

theorem digitChar_isDigit (d : Nat) (h : d < 10) : (digitChar d).isDigit = true := by
  interval_cases d <;> decide

theorem charVal_digitChar (d : Nat) (h : d < 10) : charVal (digitChar d) = d := by
  interval_cases d <;> decide

theorem natRepr_all_digits (n : Nat) : ∀ c ∈ natRepr n, c.isDigit = true := by
  intro c hc
  by_cases h : n = 0
  · subst h; simp [natRepr] at hc; subst hc; decide
  · simp only [natRepr, if_neg h, List.mem_reverse, List.mem_map] at hc
    obtain ⟨d, hd, rfl⟩ := hc
    exact digitChar_isDigit d (Nat.digits_lt_base (by norm_num) hd)

theorem isDigit_ne_of_not_digit {c sep : Char} (hc : c.isDigit = true)
    (hsep : sep.isDigit = false) : c ≠ sep := by
  intro h; subst h; rw [hc] at hsep; cases hsep

theorem parsePyNat_natRepr (n : Nat) : parsePyNat (natRepr n) = some n := by
  by_cases h : n = 0
  · subst h; decide
  · have hne : natRepr n ≠ [] := by
      simp only [natRepr, if_neg h]
      intro hcon
      rw [List.reverse_eq_nil_iff, List.map_eq_nil_iff] at hcon
      exact (Nat.digits_ne_nil_iff_ne_zero.mpr h) hcon
    have hall : (natRepr n).all Char.isDigit = true :=
      List.all_eq_true.mpr (natRepr_all_digits n)
    simp only [parsePyNat, if_neg hne, hall, if_true]
    congr 1
    simp only [natRepr, if_neg h, List.map_reverse, List.reverse_reverse, List.map_map]
    have hmap : ((Nat.digits 10 n).map (charVal ∘ digitChar)) = Nat.digits 10 n := by
      have h2 : ∀ d ∈ Nat.digits 10 n, (charVal ∘ digitChar) d = id d := by
        intro d hd
        simp only [Function.comp_apply, id_eq]
        exact charVal_digitChar d (Nat.digits_lt_base (by norm_num) hd)
      rw [List.map_congr_left h2, List.map_id]
    rw [hmap, Nat.ofDigits_digits]

/-- The single-quote character, written via its code point. -/
def squote : Char := Char.ofNat 39

/-- Model of the f-string `f"'{v}'"` in `update_db.py`: wraps a value in single
quotes, so every value is stored as SQL text. -/
def pyQuote (v : Str) : Str := squote :: v ++ [squote]

/-- Embedding of Python's `s.endswith(t)`. -/
def endsWithL (hay needle : Str) : Bool :=
  decide (hay.drop (hay.length - needle.length) = needle) && decide (needle.length ≤ hay.length)

/-- First-match association-list lookup, used to state which value belongs to
which column. -/
def lookupD (k : Str) : List (Str × Str) → Str
  | [] => []
  | p :: rest => if p.1 = k then p.2 else lookupD k rest

theorem lookupD_of_nodup {kvs : List (Str × Str)} (h : (kvs.map Prod.fst).Nodup)
    {p : Str × Str} (hp : p ∈ kvs) : lookupD p.1 kvs = p.2 := by
  induction kvs with
  | nil => cases hp
  | cons q rest ih =>
    rcases List.mem_cons.mp hp with rfl | hp'
    · simp [lookupD]
    · have hq : q.1 ≠ p.1 := by
        intro he
        have : p.1 ∈ rest.map Prod.fst := List.mem_map_of_mem Prod.fst hp'
        rw [← he] at this
        exact (List.nodup_cons.mp h).1 this
      have hrest : (rest.map Prod.fst).Nodup := (List.nodup_cons.mp h).2
      simp [lookupD, hq, ih hrest hp']

theorem map_fst_sortPairs (kvs : List (Str × Str)) :
    (sortPairs kvs).map Prod.fst = sortKeys (kvs.map Prod.fst) := by
  have hperm : ((sortPairs kvs).map Prod.fst).Perm (sortKeys (kvs.map Prod.fst)) := by
    refine ((List.perm_insertionSort pairLe kvs).map Prod.fst).trans ?_
    exact (List.perm_insertionSort keyLe (kvs.map Prod.fst)).symm
  have hs1 : List.Sorted keyLe ((sortPairs kvs).map Prod.fst) := by
    rw [List.Sorted, List.pairwise_map]
    exact List.sorted_insertionSort pairLe kvs
  have hs2 : List.Sorted keyLe (sortKeys (kvs.map Prod.fst)) :=
    List.sorted_insertionSort keyLe _
  exact List.eq_of_perm_of_sorted hperm hs1 hs2

theorem sortPairs_proj (kvs : List (Str × Str)) (h : (kvs.map Prod.fst).Nodup) :
    (sortPairs kvs).map Prod.snd
      = (sortKeys (kvs.map Prod.fst)).map (fun k => lookupD k kvs) := by
  have hmem : ∀ p ∈ sortPairs kvs, p ∈ kvs := fun p hp =>
    (List.perm_insertionSort pairLe kvs).subset hp
  have : (sortPairs kvs).map Prod.snd
      = (sortPairs kvs).map (fun p => lookupD p.1 kvs) :=
    List.map_congr_left (fun p hp => (lookupD_of_nodup h (hmem p hp)).symm)
  rw [this]
  have h3 : (sortPairs kvs).map (fun p => lookupD p.1 kvs)
      = ((sortPairs kvs).map Prod.fst).map (fun k => lookupD k kvs) := by
    rw [List.map_map]; rfl
  rw [h3, map_fst_sortPairs]

namespace UpdateDb

/-- One SQLite table: its name, column list (in declaration order) and rows
(each row a list of SQL text values in column order). -/
structure Table where
  name : Str
  cols : List Str
  rows : List (List Str)
deriving DecidableEq

/-- The results database: a list of tables. -/
abbrev DB := List Table

/-- Errors: `noYamlFound` is the module's `ScriptException`; the others model
SQLite errors raised by `cursor.execute`, and `badRunIdToken` models the
`IndexError`/`ValueError` from `name.split("_")[1]` / `int(...)`. -/
inductive DbErr where
  | noYamlFound
  | tableAlreadyExists
  | noSuchTable
  | badRowArity
  | badRunIdToken
deriving DecidableEq

/-- The synthetic `result_id` column name. -/
def resultIdCol : Str := "result_id".toList

/-- Embedding of `table_exists` (update_db.py:35-42): counts the tables with
the given name in `sqlite_master` and compares with 1. -/
def countTables : DB → Str → Nat
  | [], _ => 0
  | t :: rest, n => (if t.name = n then 1 else 0) + countTables rest n

/-- Embedding of `table_exists`'s result. -/
def tableExists (db : DB) (n : Str) : Bool := decide (countTables db n = 1)

/-- Embedding of `create_table` (update_db.py:45-49): creates the table unless
`table_exists` reports it; the inner error branch models SQLite rejecting
`CREATE TABLE` for a name that is already present. -/
def createTable (db : DB) (n : Str) (fields : List Str) : Except DbErr DB :=
  if tableExists db n then .ok db
  else if db.any (fun t => decide (t.name = n)) then .error .tableAlreadyExists
  else .ok (db ++ [⟨n, fields, []⟩])

/-- Lookup of the table a SQL statement addresses. -/
def findTable : DB → Str → Option Table
  | [], _ => none
  | t :: rest, n => if t.name = n then some t else findTable rest n

/-- Appends a row to every table of the given name (names are unique in a real
SQLite database). -/
def appendRow (db : DB) (n : Str) (vals : List Str) : DB :=
  db.map (fun t => if t.name = n then ⟨t.name, t.cols, t.rows ++ [vals]⟩ else t)

/-- Model of executing `INSERT INTO n VALUES (...)`: SQLite rejects the
statement when the table is missing or the value count differs from the
column count; otherwise the row is appended. -/
def insertRow (db : DB) (n : Str) (vals : List Str) : Except DbErr DB :=
  match findTable db n with
  | none => .error .noSuchTable
  | some t =>
    if vals.length = t.cols.length then .ok (appendRow db n vals)
    else .error .badRowArity

/-- Embedding of `os.path.basename(fpath).split(".")[0]` on a plain file
name: the part before the first dot. -/
def pyStem (cs : Str) : Str := (splitOnChar '.' cs).headI

/-- Embedding of `int(name.split("_")[1])` (update_db.py:133): the second
underscore-delimited token of the stem, parsed as an integer; `none` models
the `IndexError`/`ValueError` Python would raise. -/
def runIdOfName (cs : Str) : Option Nat :=
  match (splitOnChar '_' (pyStem cs)).get? 1 with
  | none => none
  | some tok => parsePyNat tok

/-- A result document: the flat key/value mapping loaded from one YAML file. -/
abbrev Doc := List (Str × Str)

/-- Embedding of `Controller._add_results_to_table` (update_db.py:130-144):
recover the run id from the file name, append `(result_id, id)` to the
document's items, sort the pairs by key, quote every value and execute the
positional INSERT. -/
def addResultsToTable (tname fname : Str) (doc : Doc) (db : DB) : Except DbErr DB :=
  match runIdOfName fname with
  | none => .error .badRunIdToken
  | some rid =>
    let kvs := doc ++ [(resultIdCol, natRepr rid)]
    let vals := (sortPairs kvs).map (fun p => pyQuote p.2)
    insertRow db tname vals

/-- The `.yaml` files of the results folder (the `f.endswith(".yaml")` filter
applied to `os.listdir`), in listing order, paired with the document each one
holds. -/
def yamlFiles (files : List (Str × Doc)) : List (Str × Doc) :=
  files.filter (fun f => endsWithL f.1 ".yaml".toList)

/-- The second loop of `Controller._write_results_table`: ingest every yaml
document in listing order, stopping at the first database error. -/
def addAllResults (tname : Str) : List (Str × Doc) → DB → Except DbErr DB
  | [], db => .ok db
  | (f, d) :: rest, db =>
    match addResultsToTable tname f d db with
    | .error e => .error e
    | .ok db' => addAllResults tname rest db'

/-- Embedding of `Controller._write_results_table` (update_db.py:75-98): the
first yaml document fixes the column list (its sorted keys plus `result_id`),
`create_table` is called idempotently, then every yaml document is inserted.
No yaml file at all raises the module's `ScriptException`. -/
def writeResultsTable (tname : Str) (files : List (Str × Doc)) (db : DB) : Except DbErr DB :=
  match yamlFiles files with
  | [] => .error .noYamlFound
  | (_, d0) :: _ =>
    let colNames := sortKeys (d0.map Prod.fst ++ [resultIdCol])
    match createTable db tname colNames with
    | .error e => .error e
    | .ok db1 => addAllResults tname (yamlFiles files) db1

theorem countTables_eq_zero_iff (db : DB) (n : Str) :
    countTables db n = 0 ↔ ∀ t ∈ db, t.name ≠ n := by
  induction db with
  | nil => simp [countTables]
  | cons t rest ih =>
    by_cases h : t.name = n
    · simp [countTables, h, ih]
    · simp [countTables, h, ih]

theorem countTables_append (db1 db2 : DB) (n : Str) :
    countTables (db1 ++ db2) n = countTables db1 n + countTables db2 n := by
  induction db1 with
  | nil => simp [countTables]
  | cons t rest ih => simp [countTables, ih]; omega

theorem anyName_false (db : DB) (n : Str) (h : ∀ t ∈ db, t.name ≠ n) :
    (db.any fun t => decide (t.name = n)) = false := by
  by_contra hc
  rw [Bool.not_eq_false, List.any_eq_true] at hc
  obtain ⟨t, ht, hdec⟩ := hc
  exact h t ht (of_decide_eq_true hdec)

theorem createTable_of_absent (db : DB) (n : Str) (f : List Str)
    (h : ∀ t ∈ db, t.name ≠ n) :
    createTable db n f = .ok (db ++ [⟨n, f, []⟩]) := by
  have hc : countTables db n = 0 := (countTables_eq_zero_iff db n).mpr h
  have hex : tableExists db n = false := by simp [tableExists, hc]
  have hany := anyName_false db n h
  simp [createTable, hex, hany]

theorem findTable_name {db : DB} {n : Str} {T : Table}
    (h : findTable db n = some T) : T.name = n := by
  induction db with
  | nil => cases h
  | cons t rest ih =>
    by_cases ht : t.name = n
    · simp [findTable, ht] at h; rw [← h]; exact ht
    · simp [findTable, ht] at h; exact ih h

theorem findTable_append_of_absent (db : DB) (n : Str) (T : Table)
    (h : ∀ t ∈ db, t.name ≠ n) (hT : T.name = n) :
    findTable (db ++ [T]) n = some T := by
  induction db with
  | nil => simp [findTable, hT]
  | cons t rest ih =>
    have ht : t.name ≠ n := h t (List.mem_cons_self _ _)
    simp only [List.cons_append, findTable, if_neg ht]
    exact ih (fun u hu => h u (List.mem_cons_of_mem _ hu))

theorem findTable_appendRow (db : DB) (n : Str) (vals : List Str) (T : Table)
    (hT : findTable db n = some T) :
    findTable (appendRow db n vals) n = some ⟨T.name, T.cols, T.rows ++ [vals]⟩ := by
  induction db with
  | nil => cases hT
  | cons t rest ih =>
    by_cases ht : t.name = n
    · simp only [findTable, if_pos ht] at hT
      cases hT
      simp [appendRow, findTable, ht]
    · simp only [findTable, if_neg ht] at hT
      simp only [appendRow, List.map_cons, if_neg ht, findTable, if_neg ht]
      exact ih hT

theorem lookupD_append_last (k : Str) (l : List (Str × Str)) (v : Str)
    (h : k ∉ l.map Prod.fst) : lookupD k (l ++ [(k, v)]) = v := by
  induction l with
  | nil => simp [lookupD]
  | cons p rest ih =>
    have hp : p.1 ≠ k := by
      intro he; exact h (by rw [← he]; exact List.mem_cons_self _ _)
    simp only [List.map_cons, List.mem_cons] at h
    simp [lookupD, hp, ih (fun hm => h (Or.inr hm))]

/-- The row `_add_results_to_table` produces for one document, phrased against
the table's column list: for each column, the (quoted) value the document (or
the synthetic `result_id`) holds for that key. -/
def expectedRow (cols : List Str) (fd : Str × Doc) : List Str :=
  cols.map (fun c =>
    pyQuote (lookupD c (fd.2 ++ [(resultIdCol, natRepr ((runIdOfName fd.1).getD 0))])))

theorem addResults_step (tname fname : Str) (doc : Doc) (db : DB) (T : Table) (rid : Nat)
    (hT : findTable db tname = some T)
    (hid : runIdOfName fname = some rid)
    (hsorted : T.cols.Sorted keyLe)
    (hperm : T.cols.Perm (doc.map Prod.fst ++ [resultIdCol]))
    (hnodup : (doc.map Prod.fst).Nodup)
    (hres : resultIdCol ∉ doc.map Prod.fst) :
    addResultsToTable tname fname doc db
      = .ok (appendRow db tname
          (T.cols.map (fun c => pyQuote (lookupD c (doc ++ [(resultIdCol, natRepr rid)]))))) := by
  have hkvs_fst : ((doc ++ [(resultIdCol, natRepr rid)]).map Prod.fst)
      = doc.map Prod.fst ++ [resultIdCol] := by simp
  have hkvs_nodup : ((doc ++ [(resultIdCol, natRepr rid)]).map Prod.fst).Nodup := by
    rw [hkvs_fst, List.nodup_append]
    exact ⟨hnodup, List.nodup_singleton _, by simpa [List.disjoint_singleton] using hres⟩
  have hproj := sortPairs_proj (doc ++ [(resultIdCol, natRepr rid)]) hkvs_nodup
  have hcols : sortKeys ((doc ++ [(resultIdCol, natRepr rid)]).map Prod.fst) = T.cols := by
    refine List.eq_of_perm_of_sorted ?_ (List.sorted_insertionSort keyLe _) hsorted
    refine (List.perm_insertionSort keyLe _).trans ?_
    rw [hkvs_fst]
    exact hperm.symm
  have hvals : (sortPairs (doc ++ [(resultIdCol, natRepr rid)])).map (fun p => pyQuote p.2)
      = T.cols.map (fun c => pyQuote (lookupD c (doc ++ [(resultIdCol, natRepr rid)]))) := by
    have h1 : (sortPairs (doc ++ [(resultIdCol, natRepr rid)])).map (fun p => pyQuote p.2)
        = ((sortPairs (doc ++ [(resultIdCol, natRepr rid)])).map Prod.snd).map pyQuote := by
      rw [List.map_map]; rfl
    rw [h1, hproj, hcols, List.map_map]
    rfl
  have hlen : (T.cols.map
      (fun c => pyQuote (lookupD c (doc ++ [(resultIdCol, natRepr rid)])))).length
      = T.cols.length := List.length_map _ _
  simp only [addResultsToTable, hid, hvals, insertRow, hT, hlen]
  simp

theorem addAll_accum (tname : Str) (dk : List Str)
    (hnodup0 : dk.Nodup) (hres0 : resultIdCol ∉ dk) :
    ∀ (fds : List (Str × Doc)) (db : DB) (T : Table),
      findTable db tname = some T →
      T.cols.Sorted keyLe →
      T.cols.Perm (dk ++ [resultIdCol]) →
      (∀ fd ∈ fds, (fd.2.map Prod.fst).Perm dk) →
      (∀ fd ∈ fds, (runIdOfName fd.1).isSome = true) →
      ∃ db', addAllResults tname fds db = .ok db'
        ∧ findTable db' tname
            = some ⟨T.name, T.cols, T.rows ++ fds.map (expectedRow T.cols)⟩ := by
  intro fds
  induction fds with
  | nil =>
    intro db T hT _ _ _ _
    refine ⟨db, rfl, ?_⟩
    cases T
    simpa using hT
  | cons fd rest ih =>
    intro db T hT hsorted hperm hkeys hids
    obtain ⟨f, d⟩ := fd
    obtain ⟨rid, hrid⟩ := Option.isSome_iff_exists.mp (hids _ (List.mem_cons_self _ _))
    have hdkeys : (d.map Prod.fst).Perm dk := hkeys _ (List.mem_cons_self _ _)
    have hdnodup : (d.map Prod.fst).Nodup := hdkeys.nodup_iff.mpr hnodup0
    have hdres : resultIdCol ∉ d.map Prod.fst := fun hm => hres0 (hdkeys.subset hm)
    have hperm' : T.cols.Perm (d.map Prod.fst ++ [resultIdCol]) :=
      hperm.trans (List.Perm.append_right _ hdkeys.symm)
    have hstep := addResults_step tname f d db T rid hT hrid hsorted hperm' hdnodup hdres
    have hrow : (T.cols.map (fun c => pyQuote (lookupD c (d ++ [(resultIdCol, natRepr rid)]))))
        = expectedRow T.cols (f, d) := by
      simp [expectedRow, hrid]
    have hT' : findTable (appendRow db tname (expectedRow T.cols (f, d))) tname
        = some ⟨T.name, T.cols, T.rows ++ [expectedRow T.cols (f, d)]⟩ := by
      exact findTable_appendRow db tname _ T hT
    have hrec := ih (appendRow db tname (expectedRow T.cols (f, d)))
      ⟨T.name, T.cols, T.rows ++ [expectedRow T.cols (f, d)]⟩ hT' hsorted hperm
      (fun u hu => hkeys u (List.mem_cons_of_mem _ hu))
      (fun u hu => hids u (List.mem_cons_of_mem _ hu))
    obtain ⟨db', hrun, hfind⟩ := hrec
    refine ⟨db', ?_, ?_⟩
    · simp only [addAllResults, hstep, hrow]
      exact hrun
    · simpa [List.append_assoc] using hfind

end UpdateDb

namespace ScriptGen

/-- One problem instance expanded with a discretization count:
`(folder, file name, number of discretizations)`. -/
abbrev Case := Str × Str × Str

/-- Embedding of Python's `needle in hay` substring test. -/
def containsSub (hay needle : Str) : Bool :=
  match hay with
  | [] => decide (needle = [])
  | c :: rest => needle.isPrefixOf (c :: rest) || containsSub rest needle

/-- Error raised by `script_generator.py` when discovery finds nothing. -/
inductive GenErr where
  | noCasesFound
deriving DecidableEq

/-- Embedding of `Controller._collect_exhaustive_cases`
(script_generator.py:182-196): walk the data folders, skip any folder whose
name contains `_100_` or `_102_` (a fixed, hard-coded exclusion set), keep
`.txt` files, and pair each with every requested discretization. -/
def collectExhaustiveCases (folders : List (Str × List Str)) (discretizations : List Str) :
    Except GenErr (List Case) :=
  let cases := folders.flatMap (fun fd =>
    if containsSub fd.1 "_100_".toList || containsSub fd.1 "_102_".toList then []
    else fd.2.flatMap (fun f =>
      if endsWithL f ".txt".toList then discretizations.map (fun d => (fd.1, f, d))
      else []))
  if cases = [] then .error .noCasesFound else .ok cases

/-- Modelled from the spec's wording of the CaseCatalog contract (claim C7):
directory-walk discovery "excluding groups whose path matches any of a
caller-supplied set of substrings". Only used to compare the spec's wording
against the source's fixed exclusion set. -/
def collectCasesSpecWorded (exclusions : List Str) (folders : List (Str × List Str))
    (discretizations : List Str) : Except GenErr (List Case) :=
  let cases := folders.flatMap (fun fd =>
    if exclusions.any (fun e => containsSub fd.1 e) then []
    else fd.2.flatMap (fun f =>
      if endsWithL f ".txt".toList then discretizations.map (fun d => (fd.1, f, d))
      else []))
  if cases = [] then .error .noCasesFound else .ok cases

/-- One line of the run-file `Controller._generate_exhaustive_setup` writes:
the counter that numbers it, the case it encodes and the additional
command-set appended to the base command. -/
structure ExLine where
  runId : Nat
  c : Case
  addition : List Str
deriving DecidableEq

/-- The inner `for addition in additional_cmds` loop: one line per addition,
counter increasing by one per line. -/
def emitAdds (cse : Case) : List (List Str) → Nat → List ExLine
  | [], _ => []
  | a :: rest, k => ⟨k, cse, a⟩ :: emitAdds cse rest (k + 1)

/-- The per-case body of `_generate_exhaustive_setup`'s loop: with no
additional command sets a single line is written, otherwise one per set. -/
def caseLines (cse : Case) (adds : List (List Str)) (k : Nat) : List ExLine :=
  if adds.isEmpty then [⟨k, cse, []⟩] else emitAdds cse adds k

/-- The outer `for folder, file_name, num_disc in cases` loop with its shared
counter. -/
def emitCases : List Case → List (List Str) → Nat → List ExLine
  | [], _, _ => []
  | cse :: cs, adds, k =>
    caseLines cse adds k ++ emitCases cs adds (k + (caseLines cse adds k).length)

/-- Embedding of the run-file contents produced by
`Controller._generate_exhaustive_setup` (script_generator.py:147-176). -/
def generateExhaustiveLines (cases : List Case) (adds : List (List Str)) : List ExLine :=
  emitCases cases adds 0

/-- Embedding of `"results_{}.format(counter)"`-style naming
(`results_file_name` in `Controller._generate_non_exhaustive_setup`,
script_generator.py:126): the output document's file name for a given run id. -/
def resultsFileName (counter : Nat) : Str :=
  "results_".toList ++ natRepr counter ++ ".yaml".toList

/-- Embedding of `Controller._get_folder_and_file_names`
(script_generator.py:213-214): `list(set(...))` of the `(folder, file)` pairs
of the cases. Python's set iteration order is unspecified; `dedup` (keep the
first occurrence of each pair) is one concrete such order, which is all the
claims about it need. -/
def getFolderAndFileNames (cases : List Case) : List (Str × Str) :=
  (cases.map (fun cse => (cse.1, cse.2.1))).dedup

/-- The observable side effects of `_generate_non_exhaustive_setup` and
`_prepare_test_folder`, in program order. -/
inductive GenEvent where
  | writeLine (runId : Nat) (c : Case)
  | makeRunDir
  | copyJar
  | copyFile (name : Str)
  | removeRunsFile
  | makeDataDir
  | stageCase (p : Str × Str)
  | makeOutDir (name : Str)
deriving DecidableEq

/-- The run-file writing loop of `_generate_non_exhaustive_setup`
(script_generator.py:122-141): one descriptor line per case, in order. -/
def writeEvents : List Case → Nat → List GenEvent
  | [], _ => []
  | c :: cs, k => .writeLine k c :: writeEvents cs (k + 1)

/-- Embedding of `Controller._prepare_test_folder`
(script_generator.py:223-251): create the run package, copy the jar, copy the
runs file and shell scripts into it, delete the scratch runs file, then stage
every (deduplicated) instance file, then create the output folders. -/
def prepareTestFolderEvents (testName : Str) (pairs : List (Str × Str)) : List GenEvent :=
  [.makeRunDir, .copyJar]
    ++ [.copyFile (testName ++ "_runs.txt".toList),
        .copyFile "submit-batch.sh".toList,
        .copyFile "slurm-batch-job.sh".toList]
    ++ [.removeRunsFile, .makeDataDir]
    ++ pairs.map GenEvent.stageCase
    ++ [.makeOutDir "output".toList, .makeOutDir "results".toList]

/-- The full event trace of `Controller._generate_non_exhaustive_setup`
(script_generator.py:117-145): the run-file is written first, line by line,
and only then is `_prepare_test_folder` called. -/
def generateNonExhaustiveTrace (testName : Str) (cases : List Case) : List GenEvent :=
  writeEvents cases 0 ++ prepareTestFolderEvents testName (getFolderAndFileNames cases)

end ScriptGen

namespace BatchRunner

/-- Embedding of `batch_runner.Config` plus the run flags set from the command
line. The source `Config` never defines `names`/`paths`; those attributes are
read only by code below the unconditional `return` in `Controller.run`, so
they are carried here as explicit fields to let that dead code be embedded. -/
structure Config where
  budget : Bool
  mean : Bool
  parallel : Bool
  quality : Bool
  timeComparison : Bool
  jarPath : String
  cplexLibPath : Option String
  names : List String
  paths : List String
deriving DecidableEq

/-- The parts of the machine state `Controller.run` consults: whether the
gradle build produced the jar, whether the data folder and the cplex library
folder exist, what `guess_cplex_library_path` returns, and the `os.walk`
listing of the data folder. -/
structure Env where
  guessedCplexPath : Option String
  jarBuilt : Bool
  dataDirOk : Bool
  cplexDirOk : Bool
  walk : List (String × List String)

/-- The `ScriptException`s `Controller.run` can raise before its `return`,
plus the "no batch run chosen" one raised only by the dead code after it. -/
inductive RunErr where
  | uberjarBuildFailed
  | dataFolderNotFound
  | cplexPathNotFound
  | cplexPathInvalid
  | noCasesFound
  | noBatchChosen
deriving DecidableEq

/-- Embedding of `Controller._collect_cases_to_run` (batch_runner.py:133-138):
the `return` inside the nested loop stops the walk at the first `.txt` file,
so at most one case is ever collected. -/
def collectCasesToRun : List (String × List String) → List String
  | [] => []
  | (top, files) :: rest =>
    match files.find? (fun f => endsWithL f.toList ".txt".toList) with
    | some f => [top ++ "/" ++ f]
    | none => collectCasesToRun rest

/-- What `Controller.run` produces: the base solver command it builds, and the
solver subprocess invocations it performs (one entry per
`subprocess.check_call` of the solver; the gradle build subprocess is
modelled by `Env.jarBuilt`). -/
structure RunOutcome where
  baseCmd : List String
  solverCalls : List (List String)
deriving DecidableEq

/-- The three reschedule models of the dead batch code. -/
def models : List String := ["naive", "dep", "benders"]

/-- Embedding of `Controller._generate_delays`. -/
def generateDelays (cmd : List String) : List (List String) :=
  [cmd ++ ["-generateDelays"]]

/-- Embedding of `Controller._generate_reschedule_solution`. -/
def generateRescheduleSolution (cmd : List String) (model : String) : List (List String) :=
  [cmd ++ ["-model", model, "-parseDelays", "-type", "training"]]

/-- Embedding of `Controller._generate_test_results`. -/
def generateTestResults (cmd : List String) : List (List String) :=
  [cmd ++ ["-parseDelays", "-type", "test"]]

/-- Embedding of `Controller._generate_all_results`. -/
def generateAllResults (cmd : List String) : List (List String) :=
  generateDelays cmd ++ models.flatMap (generateRescheduleSolution cmd) ++ generateTestResults cmd

/-- The budget fractions of `Controller._run_budget_set`. -/
def budgetFractions : List String := ["0.25", "0.5", "0.75", "1", "2"]

/-- Embedding of `Controller._run_budget_set` (solver invocations only). -/
def runBudgetSet (baseCmd : List String) (names paths : List String) : List (List String) :=
  (names.zip paths).flatMap (fun np =>
    budgetFractions.flatMap (fun bf =>
      generateAllResults (baseCmd ++ ["-batch", "-path", np.2, "-n", np.1, "-r", bf])))

/-- Embedding of `Controller._run_mean_set` (solver invocations only). -/
def runMeanSet (baseCmd : List String) (names paths : List String) : List (List String) :=
  (names.zip paths).flatMap (fun np =>
    (["exp", "tnorm", "lnorm"] : List String).flatMap (fun distribution =>
      (["15", "30", "45", "60"] : List String).flatMap (fun mean =>
        generateAllResults
          (baseCmd ++ ["-batch", "-path", np.2, "-n", np.1, "-d", distribution, "-mean", mean]))))

/-- Embedding of `Controller._run_quality_set` (solver invocations only). -/
def runQualitySet (baseCmd : List String) (names paths : List String) : List (List String) :=
  (names.zip paths).flatMap (fun np =>
    (["exp", "tnorm", "lnorm"] : List String).flatMap (fun distribution =>
      (["all", "hub", "rush"] : List String).flatMap (fun flightPick =>
        generateAllResults
          (baseCmd ++ ["-batch", "-path", np.2, "-n", np.1, "-d", distribution, "-f", flightPick]))))

/-- Embedding of `Controller._run_parallel_set` (solver invocations only). -/
def runParallelSet (baseCmd : List String) (names paths : List String) : List (List String) :=
  (names.zip paths).flatMap (fun np =>
    (List.range 5).flatMap (fun _ =>
      let cmd := baseCmd ++ ["-batch", "-path", np.2, "-n", np.1, "-type", "time"]
      generateDelays cmd
        ++ ([1, 10, 20, 30] : List Nat).map (fun numThreads =>
              cmd ++ ["-model", "benders", "-parseDelays", "-parallel", toString numThreads])))

/-- Embedding of `Controller._run_time_comparison_set` (solver invocations
only). -/
def runTimeComparisonSet (baseCmd : List String) (names paths : List String) :
    List (List String) :=
  (names.zip paths).flatMap (fun np =>
    (List.range 5).flatMap (fun _ =>
      let cmd := baseCmd ++ ["-batch", "-path", np.2, "-n", np.1, "-type", "time"]
      generateDelays cmd
        ++ (["enum", "all", "best", "first"] : List String).map (fun cgen =>
              cmd ++ ["-parseDelays", "-model", "benders", "-c", cgen])))

/-- Embedding of `Controller.run` (batch_runner.py:63-85) up to and including
the unconditional `return` on line 85: resolve the cplex path, build the
uberjar, validate the setup, collect the cases, build the base command, and
return. The statements below the `return` (lines 87-105) are dead code in the
source; they are embedded separately as `runAfterReturn` and nothing here
invokes them. -/
def run (cfg : Config) (env : Env) : Except RunErr RunOutcome :=
  let effectivePath :=
    match cfg.cplexLibPath with
    | some p => some p
    | none => env.guessedCplexPath
  if env.jarBuilt = false then .error .uberjarBuildFailed
  else if env.dataDirOk = false then .error .dataFolderNotFound
  else
    match effectivePath with
    | none => .error .cplexPathNotFound
    | some p =>
      if env.cplexDirOk = false then .error .cplexPathInvalid
      else if collectCasesToRun env.walk = [] then .error .noCasesFound
      else
        .ok ⟨["java", "-Xms32m", "-Xmx32g", "-Djava.library.path=" ++ p, "-jar", cfg.jarPath],
             []⟩

/-- Embedding of the statements below the `return` (batch_runner.py:87-105):
the "no batch run chosen" check and the five batch-execution branches. In the
source this block is unreachable; it is embedded so that its behaviour can be
contrasted with `run`'s. -/
def runAfterReturn (cfg : Config) (baseCmd : List String) :
    Except RunErr (List (List String)) :=
  if ¬(cfg.budget || cfg.mean || cfg.parallel || cfg.quality || cfg.timeComparison) then
    .error .noBatchChosen
  else
    .ok ((if cfg.budget then runBudgetSet baseCmd cfg.names cfg.paths else [])
      ++ (if cfg.mean then runMeanSet baseCmd cfg.names cfg.paths else [])
      ++ (if cfg.parallel then runParallelSet baseCmd cfg.names cfg.paths else [])
      ++ (if cfg.quality then runQualitySet baseCmd cfg.names cfg.paths else [])
      ++ (if cfg.timeComparison then runTimeComparisonSet baseCmd cfg.names cfg.paths else []))

end BatchRunner

namespace Queries

/-- Embedding of `generate_exhaustive_table_count_query` (queries.py:1-9); the
Python defaults are `category='optimal'`, `num_targets=21`,
`num_discretizations=2`. -/
def generateExhaustiveTableCountQuery (category : String)
    (numTargets numDiscretizations : Nat) : String :=
  let q := "select count(*) from exhaustive_dssr_bit_based_cycles where "
  let q := q ++ "cast(number_of_discretizations as integer) = "
    ++ toString numDiscretizations ++ " and "
  let q := q ++ "instance_path like \"%" ++ toString numTargets ++ "%\" and "
  let q := if category = "optimal" then
      q ++ "cast(solution_time_in_seconds as decimal(16,2)) < 3600.0"
    else q
  if category = "timed-out" then
    q ++ "cast(solution_time_in_seconds as decimal(16,2)) >= 3600.0"
  else q

/-- The needle occurs somewhere in the query text. -/
def containsStr (hay needle : String) : Prop :=
  ∃ p s : Str, hay.data = p ++ needle.data ++ s

/-- The query text ends with the given string. -/
def endsWithStr (hay tl : String) : Prop :=
  ∃ p : Str, hay.data = p ++ tl.data

/-- Minimal well-formedness condition for a WHERE clause: the query must not
stop short at a dangling `and` connective. -/
def noDanglingAnd (q : String) : Prop := ¬ endsWithStr q "and "

end Queries

deriving instance DecidableEq for Except

namespace UpdateDb

theorem countTables_le_one (db : DB) (n : Str) (h : (db.map Table.name).Nodup) :
    countTables db n ≤ 1 := by
  induction db with
  | nil => simp [countTables]
  | cons t rest ih =>
    rcases List.nodup_cons.mp h with ⟨hnot, hrest⟩
    by_cases ht : t.name = n
    · have hz : countTables rest n = 0 := by
        refine (countTables_eq_zero_iff rest n).mpr ?_
        intro u hu hun
        exact hnot (by rw [ht, ← hun]; exact List.mem_map_of_mem Table.name hu)
      simp [countTables, ht, hz]
    · simpa [countTables, ht] using ih hrest

end UpdateDb

/-- Claim C6: table creation is idempotent: for every existing table and every
requested field list, invoking the table-creation step a second time against
the already-existing table never raises and never alters the table's column
set (the database is returned unchanged). -/
theorem C6_create_table_idempotent (db : UpdateDb.DB) (n : Str) (f f' : List Str)
    (h : (db.map UpdateDb.Table.name).Nodup) :
    ∃ db', UpdateDb.createTable db n f = .ok db' ∧ UpdateDb.createTable db' n f' = .ok db' := by
  by_cases hex : UpdateDb.tableExists db n = true
  · exact ⟨db, by simp [UpdateDb.createTable, hex], by simp [UpdateDb.createTable, hex]⟩
  · have hle := UpdateDb.countTables_le_one db n h
    have hne1 : UpdateDb.countTables db n ≠ 1 := by
      intro hc
      exact hex (by simp [UpdateDb.tableExists, hc])
    have hz : UpdateDb.countTables db n = 0 := by omega
    have habsent := (UpdateDb.countTables_eq_zero_iff db n).mp hz
    refine ⟨db ++ [⟨n, f, []⟩], UpdateDb.createTable_of_absent db n f habsent, ?_⟩
    have hcount : UpdateDb.countTables (db ++ [⟨n, f, []⟩]) n = 1 := by
      rw [UpdateDb.countTables_append, hz]
      simp [UpdateDb.countTables]
    have hex' : UpdateDb.tableExists (db ++ [⟨n, f, []⟩]) n = true := by
      simp [UpdateDb.tableExists, hcount]
    simp [UpdateDb.createTable, hex']

/-- Witness for C6 at a concrete database and field lists. -/
theorem C6_witness :
    ∃ db', UpdateDb.createTable [] "t".toList ["a".toList] = .ok db'
      ∧ UpdateDb.createTable db' "t".toList ["b".toList] = .ok db' :=
  C6_create_table_idempotent [] "t".toList ["a".toList] ["b".toList] (by decide)

/-- Claim C1 counterexample: the ingester performs no key-set validation. A
document whose key set `{cost, epoch}` differs from the table's column set
minus `result_id` (`{status, time}`) is not rejected: the insert succeeds and
the row count grows from 0 to 1, refuting "mismatch raises SchemaMismatch and
the document is rejected with the row count unchanged". -/
theorem C1_counterexample_mismatch_inserted :
    ¬ (((["cost".toList, "epoch".toList]) : List Str).Perm ["status".toList, "time".toList])
    ∧ UpdateDb.addResultsToTable "t".toList "results_0.yaml".toList
        [("cost".toList, "9".toList), ("epoch".toList, "1".toList)]
        [⟨"t".toList, ["result_id".toList, "status".toList, "time".toList], []⟩]
      = .ok [⟨"t".toList, ["result_id".toList, "status".toList, "time".toList],
          [[pyQuote "9".toList, pyQuote "1".toList, pyQuote "0".toList]]⟩] := by
  decide

/-- Claim C1 (amended): `_add_results_to_table` never validates key sets and
has no SchemaMismatch error. A document is rejected (by the database, with the
table unchanged) exactly when its key count plus one differs from the table's
column count; a document with matching count is inserted as one row whatever
its keys are. -/
theorem C1_arity_only_validation
    (db : UpdateDb.DB) (tname fname : Str) (doc : UpdateDb.Doc) (T : UpdateDb.Table) (rid : Nat)
    (hT : UpdateDb.findTable db tname = some T)
    (hid : UpdateDb.runIdOfName fname = some rid) :
    (doc.length + 1 ≠ T.cols.length →
      UpdateDb.addResultsToTable tname fname doc db = .error .badRowArity)
    ∧ (doc.length + 1 = T.cols.length →
      UpdateDb.addResultsToTable tname fname doc db
        = .ok (UpdateDb.appendRow db tname
            ((sortPairs (doc ++ [(UpdateDb.resultIdCol, natRepr rid)])).map
              (fun p => pyQuote p.2)))) := by
  have hvlen : ((sortPairs (doc ++ [(UpdateDb.resultIdCol, natRepr rid)])).map
      (fun p => pyQuote p.2)).length = doc.length + 1 := by
    rw [List.length_map]
    unfold sortPairs
    rw [(List.perm_insertionSort pairLe _).length_eq]
    simp
  constructor
  · intro hne
    simp only [UpdateDb.addResultsToTable, hid, UpdateDb.insertRow, hT, hvlen]
    rw [if_neg hne]
  · intro heq
    simp only [UpdateDb.addResultsToTable, hid, UpdateDb.insertRow, hT, hvlen]
    rw [if_pos heq]

/-- Witness for C1's amended theorem: a well-shaped document against a
three-column table is inserted. -/
theorem C1_witness :
    UpdateDb.addResultsToTable "t".toList "results_0.yaml".toList
      [("status".toList, "True".toList), ("time".toList, "1.23".toList)]
      [⟨"t".toList, ["result_id".toList, "status".toList, "time".toList], []⟩]
    = .ok (UpdateDb.appendRow
        [⟨"t".toList, ["result_id".toList, "status".toList, "time".toList], []⟩] "t".toList
        ((sortPairs ([("status".toList, "True".toList), ("time".toList, "1.23".toList)]
          ++ [(UpdateDb.resultIdCol, natRepr 0)])).map (fun p => pyQuote p.2))) :=
  (C1_arity_only_validation
    [⟨"t".toList, ["result_id".toList, "status".toList, "time".toList], []⟩]
    "t".toList "results_0.yaml".toList
    [("status".toList, "True".toList), ("time".toList, "1.23".toList)]
    ⟨"t".toList, ["result_id".toList, "status".toList, "time".toList], []⟩ 0
    (by decide) (by decide)).2 (by decide)

/-- Claim C5: when the destination table does not exist, `_write_results_table`
creates it with column set equal to the keys of the first yaml document plus
`result_id`, sorted; and it inserts exactly one row per document, each row's
values ordered to match that sorted column list and stored quoted (as SQL
text). -/
theorem C5_schema_inference_and_insertion
    (db : UpdateDb.DB) (files : List (Str × UpdateDb.Doc)) (tname f0 : Str)
    (d0 : UpdateDb.Doc) (rest : List (Str × UpdateDb.Doc))
    (habsent : ∀ t ∈ db, t.name ≠ tname)
    (hyaml : UpdateDb.yamlFiles files = (f0, d0) :: rest)
    (hkeys : ∀ fd ∈ UpdateDb.yamlFiles files, (fd.2.map Prod.fst).Perm (d0.map Prod.fst))
    (hnodup : (d0.map Prod.fst).Nodup)
    (hres : UpdateDb.resultIdCol ∉ d0.map Prod.fst)
    (hids : ∀ fd ∈ UpdateDb.yamlFiles files, (UpdateDb.runIdOfName fd.1).isSome = true) :
    ∃ db', UpdateDb.writeResultsTable tname files db = .ok db'
      ∧ ∃ T, UpdateDb.findTable db' tname = some T
        ∧ T.cols.Sorted keyLe
        ∧ T.cols.Perm (d0.map Prod.fst ++ [UpdateDb.resultIdCol])
        ∧ T.rows = (UpdateDb.yamlFiles files).map (UpdateDb.expectedRow T.cols) := by
  have hcreate := UpdateDb.createTable_of_absent db tname
    (sortKeys (d0.map Prod.fst ++ [UpdateDb.resultIdCol])) habsent
  have hfind : UpdateDb.findTable
      (db ++ [⟨tname, sortKeys (d0.map Prod.fst ++ [UpdateDb.resultIdCol]), []⟩]) tname
      = some ⟨tname, sortKeys (d0.map Prod.fst ++ [UpdateDb.resultIdCol]), []⟩ :=
    UpdateDb.findTable_append_of_absent db tname _ habsent rfl
  have hsorted : (sortKeys (d0.map Prod.fst ++ [UpdateDb.resultIdCol])).Sorted keyLe :=
    List.sorted_insertionSort keyLe _
  have hperm : (sortKeys (d0.map Prod.fst ++ [UpdateDb.resultIdCol])).Perm
      (d0.map Prod.fst ++ [UpdateDb.resultIdCol]) :=
    List.perm_insertionSort keyLe _
  obtain ⟨db', hrun, hfind'⟩ := UpdateDb.addAll_accum tname (d0.map Prod.fst) hnodup hres
    (UpdateDb.yamlFiles files)
    (db ++ [⟨tname, sortKeys (d0.map Prod.fst ++ [UpdateDb.resultIdCol]), []⟩])
    ⟨tname, sortKeys (d0.map Prod.fst ++ [UpdateDb.resultIdCol]), []⟩
    hfind hsorted hperm hkeys hids
  have hw : UpdateDb.writeResultsTable tname files db
      = UpdateDb.addAllResults tname (UpdateDb.yamlFiles files)
          (db ++ [⟨tname, sortKeys (d0.map Prod.fst ++ [UpdateDb.resultIdCol]), []⟩]) := by
    rw [UpdateDb.writeResultsTable, hyaml]
    simp only [← hyaml, hcreate]
  refine ⟨db', by rw [hw]; exact hrun,
    ⟨tname, sortKeys (d0.map Prod.fst ++ [UpdateDb.resultIdCol]),
      (UpdateDb.yamlFiles files).map
        (UpdateDb.expectedRow (sortKeys (d0.map Prod.fst ++ [UpdateDb.resultIdCol])))⟩,
    ?_, hsorted, hperm, rfl⟩
  simpa using hfind'

/-- Witness for C5: one new table, two well-shaped documents. -/
theorem C5_witness :
    ∃ db', UpdateDb.writeResultsTable "t".toList
        [("results_0.yaml".toList,
            [("time".toList, "1.23".toList), ("status".toList, "True".toList)]),
         ("results_1.yaml".toList,
            [("time".toList, "4.56".toList), ("status".toList, "False".toList)])] []
      = .ok db'
      ∧ ∃ T, UpdateDb.findTable db' "t".toList = some T
        ∧ T.cols.Sorted keyLe
        ∧ T.cols.Perm (["time".toList, "status".toList] ++ [UpdateDb.resultIdCol])
        ∧ T.rows = (UpdateDb.yamlFiles
            [("results_0.yaml".toList,
                [("time".toList, "1.23".toList), ("status".toList, "True".toList)]),
             ("results_1.yaml".toList,
                [("time".toList, "4.56".toList), ("status".toList, "False".toList)])]).map
            (UpdateDb.expectedRow T.cols) :=
  C5_schema_inference_and_insertion []
    [("results_0.yaml".toList,
        [("time".toList, "1.23".toList), ("status".toList, "True".toList)]),
     ("results_1.yaml".toList,
        [("time".toList, "4.56".toList), ("status".toList, "False".toList)])]
    "t".toList "results_0.yaml".toList
    [("time".toList, "1.23".toList), ("status".toList, "True".toList)]
    [("results_1.yaml".toList,
        [("time".toList, "4.56".toList), ("status".toList, "False".toList)])]
    (by decide) (by decide) (by decide) (by decide) (by decide) (by decide)

theorem runIdOfName_resultsFileName (i : Nat) :
    UpdateDb.runIdOfName (ScriptGen.resultsFileName i) = some i := by
  have hdig := natRepr_all_digits i
  have hno_dot : ∀ c ∈ "results_".toList ++ natRepr i, c ≠ '.' := by
    intro c hc
    rcases List.mem_append.mp hc with h | h
    · exact (by decide : ∀ c ∈ "results_".toList, c ≠ '.') c h
    · exact isDigit_ne_of_not_digit (hdig c h) (by decide)
  have hdotsplit : splitOnChar '.' ".yaml".toList = [] :: ["yaml".toList] := by
    rw [show ".yaml".toList = '.' :: "yaml".toList from by decide, splitOnChar_sep_cons,
      splitOnChar_sep_free '.' "yaml".toList (by decide)]
  have hsplit_dot :
      splitOnChar '.' (("results_".toList ++ natRepr i) ++ ".yaml".toList)
        = (("results_".toList ++ natRepr i) ++ []) :: ["yaml".toList] :=
    splitOnChar_append '.' _ _ [] ["yaml".toList] hno_dot hdotsplit
  have hname : ScriptGen.resultsFileName i
      = ("results_".toList ++ natRepr i) ++ ".yaml".toList := by
    simp [ScriptGen.resultsFileName, List.append_assoc]
  have hstem : UpdateDb.pyStem (ScriptGen.resultsFileName i)
      = "results_".toList ++ natRepr i := by
    rw [UpdateDb.pyStem, hname, hsplit_dot]
    simp
  have h2 : "results_".toList ++ natRepr i = "results".toList ++ ('_' :: natRepr i) := by
    rw [show "results_".toList = "results".toList ++ ['_'] from by decide, List.append_assoc]
    rfl
  have h3 : splitOnChar '_' ('_' :: natRepr i) = [] :: [natRepr i] := by
    rw [splitOnChar_sep_cons,
      splitOnChar_sep_free '_' (natRepr i)
        (fun c hc => isDigit_ne_of_not_digit (hdig c hc) (by decide))]
  have hsplit_us : splitOnChar '_' ("results_".toList ++ natRepr i)
      = ["results".toList, natRepr i] := by
    have h4 := splitOnChar_append '_' "results".toList ('_' :: natRepr i) [] [natRepr i]
      (by decide) h3
    rw [h2, h4]
    simp
  simp only [UpdateDb.runIdOfName, hstem, hsplit_us]
  simpa using parsePyNat_natRepr i

/-- Claim C3: the run id is recovered as the second underscore-delimited token
of the file-name stem, and on the generation side the output file name for
run id `i` embeds `i` as exactly that token (the recovery round-trips); the
inserted row carries, at the position of the `result_id` column, the (quoted)
decimal representation of that id. -/
theorem C3_run_id_recovery
    (i : Nat) (tname : Str) (doc : UpdateDb.Doc) (db : UpdateDb.DB) (T : UpdateDb.Table)
    (hT : UpdateDb.findTable db tname = some T)
    (hsorted : T.cols.Sorted keyLe)
    (hperm : T.cols.Perm (doc.map Prod.fst ++ [UpdateDb.resultIdCol]))
    (hnodup : (doc.map Prod.fst).Nodup)
    (hres : UpdateDb.resultIdCol ∉ doc.map Prod.fst) :
    UpdateDb.runIdOfName (ScriptGen.resultsFileName i) = some i
    ∧ ∃ row, UpdateDb.addResultsToTable tname (ScriptGen.resultsFileName i) doc db
          = .ok (UpdateDb.appendRow db tname row)
        ∧ ∀ j : Nat, T.cols.get? j = some UpdateDb.resultIdCol →
            row.get? j = some (pyQuote (natRepr i)) := by
  refine ⟨runIdOfName_resultsFileName i, ?_⟩
  have hstep := UpdateDb.addResults_step tname (ScriptGen.resultsFileName i) doc db T i
    hT (runIdOfName_resultsFileName i) hsorted hperm hnodup hres
  refine ⟨T.cols.map
    (fun c => pyQuote (lookupD c (doc ++ [(UpdateDb.resultIdCol, natRepr i)]))), hstep, ?_⟩
  intro j hj
  rw [List.get?_eq_getElem?] at hj ⊢
  rw [List.getElem?_map, hj]
  simp [UpdateDb.lookupD_append_last UpdateDb.resultIdCol doc (natRepr i) hres]

/-- Witness for C3 at run id 7 against a two-column table. -/
theorem C3_witness :
    UpdateDb.runIdOfName (ScriptGen.resultsFileName 7) = some 7
    ∧ ∃ row, UpdateDb.addResultsToTable "t".toList (ScriptGen.resultsFileName 7)
          [("status".toList, "True".toList)]
          [⟨"t".toList, ["result_id".toList, "status".toList], []⟩]
        = .ok (UpdateDb.appendRow
            [⟨"t".toList, ["result_id".toList, "status".toList], []⟩] "t".toList row)
        ∧ ∀ j : Nat,
            (["result_id".toList, "status".toList] : List Str).get? j
              = some UpdateDb.resultIdCol →
            row.get? j = some (pyQuote (natRepr 7)) :=
  C3_run_id_recovery 7 "t".toList [("status".toList, "True".toList)]
    [⟨"t".toList, ["result_id".toList, "status".toList], []⟩]
    ⟨"t".toList, ["result_id".toList, "status".toList], []⟩
    (by decide) (by decide) (by decide) (by decide) (by decide)

namespace ScriptGen

theorem emitAdds_length (cse : Case) (adds : List (List Str)) (k : Nat) :
    (emitAdds cse adds k).length = adds.length := by
  induction adds generalizing k with
  | nil => rfl
  | cons a rest ih => simp [emitAdds, ih]

theorem emitAdds_getElem? (cse : Case) :
    ∀ (adds : List (List Str)) (k j : Nat),
      (emitAdds cse adds k)[j]? = (adds[j]?).map (fun a => ⟨k + j, cse, a⟩) := by
  intro adds
  induction adds with
  | nil => intro k j; simp [emitAdds]
  | cons a rest ih =>
    intro k j
    cases j with
    | zero => simp [emitAdds]
    | succ j =>
      cases hr : rest[j]? with
      | none => simp [emitAdds, ih, hr]
      | some a' =>
        simp only [emitAdds, List.getElem?_cons_succ, ih, hr, Option.map_some']
        congr 2
        omega

theorem emitAdds_map_runId (cse : Case) :
    ∀ (adds : List (List Str)) (k : Nat),
      (emitAdds cse adds k).map ExLine.runId = (List.range adds.length).map (k + ·) := by
  intro adds
  induction adds with
  | nil => intro k; rfl
  | cons a rest ih =>
    intro k
    simp only [emitAdds, List.map_cons, ih (k + 1), List.length_cons,
      List.range_succ_eq_map, List.map_map, Nat.add_zero]
    congr 1
    apply List.map_congr_left
    intro x _
    simp [Function.comp]
    omega

theorem caseLines_of_ne (cse : Case) (adds : List (List Str)) (k : Nat) (hne : adds ≠ []) :
    caseLines cse adds k = emitAdds cse adds k := by
  have hv : adds.isEmpty = false := by
    cases adds with
    | nil => exact absurd rfl hne
    | cons a r => rfl
  simp [caseLines, hv]

theorem emitCases_map_runId (adds : List (List Str)) (hne : adds ≠ []) :
    ∀ (cases : List Case) (k : Nat),
      (emitCases cases adds k).map ExLine.runId
        = (List.range (cases.length * adds.length)).map (k + ·) := by
  intro cases
  induction cases with
  | nil => intro k; simp [emitCases]
  | cons cse cs ih =>
    intro k
    simp only [emitCases, caseLines_of_ne cse adds k hne, List.map_append,
      emitAdds_map_runId, emitAdds_length, ih, List.length_cons]
    have hmul : (cs.length + 1) * adds.length = adds.length + cs.length * adds.length := by
      ring
    rw [hmul, List.range_add, List.map_append, List.map_map]
    congr 1
    apply List.map_congr_left
    intro x _
    simp [Function.comp]
    omega

theorem emitCases_getElem? (adds : List (List Str)) (hne : adds ≠ []) :
    ∀ (cases : List Case) (k j : Nat), j < cases.length * adds.length →
      ∃ l : ExLine, (emitCases cases adds k)[j]? = some l
        ∧ l.runId = k + j
        ∧ cases[j / adds.length]? = some l.c
        ∧ adds[j % adds.length]? = some l.addition := by
  intro cases
  induction cases with
  | nil =>
    intro k j hj
    simp only [List.length_nil, Nat.zero_mul] at hj
    omega
  | cons cse cs ih =>
    intro k j hj
    have hV : 0 < adds.length := List.length_pos.mpr hne
    have hlen := emitAdds_length cse adds k
    by_cases hjV : j < adds.length
    · have hget : (emitCases (cse :: cs) adds k)[j]? = (emitAdds cse adds k)[j]? := by
        simp only [emitCases, caseLines_of_ne cse adds k hne]
        rw [List.getElem?_append, hlen, if_pos hjV]
      have ha : adds[j]? = some adds[j] := List.getElem?_eq_getElem hjV
      refine ⟨⟨k + j, cse, adds[j]⟩, ?_, rfl, ?_, ?_⟩
      · rw [hget, emitAdds_getElem?, ha]
        rfl
      · rw [Nat.div_eq_of_lt hjV]
        simp
      · rw [Nat.mod_eq_of_lt hjV]
        exact ha
    · push_neg at hjV
      have hget : (emitCases (cse :: cs) adds k)[j]?
          = (emitCases cs adds (k + adds.length))[j - adds.length]? := by
        simp only [emitCases, caseLines_of_ne cse adds k hne]
        rw [List.getElem?_append_right (by rw [hlen]; exact hjV), hlen]
      have hj' : j - adds.length < cs.length * adds.length := by
        simp only [List.length_cons] at hj
        have : (cs.length + 1) * adds.length = cs.length * adds.length + adds.length := by ring
        omega
      obtain ⟨l, hl, hrun, hc, hadd⟩ := ih (k + adds.length) (j - adds.length) hj'
      refine ⟨l, by rw [hget]; exact hl, by omega, ?_, ?_⟩
      · have hdiv : j / adds.length = (j - adds.length) / adds.length + 1 := by
          conv_lhs => rw [show j = (j - adds.length) + adds.length from by omega]
          exact Nat.add_div_right _ hV
        rw [hdiv, List.getElem?_cons_succ]
        exact hc
      · have hmod : j % adds.length = (j - adds.length) % adds.length := by
          conv_lhs => rw [show j = (j - adds.length) + adds.length from by omega]
          exact Nat.add_mod_right _ _
        rw [hmod]
        exact hadd

end ScriptGen

/-- Claim C2: for a case list of length N and a non-empty list of V
variant-argument sets, `_generate_exhaustive_setup` emits run descriptors
whose run ids are exactly `0, …, N·V − 1` in that order (each exactly once),
and the descriptor numbered `k` pairs case `k / V` with variant set `k % V`
(cases outer, variants inner); being a pure function of its inputs,
regeneration from identical inputs reproduces identical ids. -/
theorem C2_run_ids_exhaustive (cases : List ScriptGen.Case) (adds : List (List Str))
    (hne : adds ≠ []) :
    (ScriptGen.generateExhaustiveLines cases adds).map ScriptGen.ExLine.runId
        = List.range (cases.length * adds.length)
    ∧ ∀ k : Nat, k < cases.length * adds.length →
        ∃ l : ScriptGen.ExLine, (ScriptGen.generateExhaustiveLines cases adds)[k]? = some l
          ∧ l.runId = k
          ∧ cases[k / adds.length]? = some l.c
          ∧ adds[k % adds.length]? = some l.addition := by
  constructor
  · rw [ScriptGen.generateExhaustiveLines, ScriptGen.emitCases_map_runId adds hne cases 0]
    simp
  · intro k hk
    obtain ⟨l, h1, h2, h3, h4⟩ := ScriptGen.emitCases_getElem? adds hne cases 0 k hk
    exact ⟨l, h1, by omega, h3, h4⟩

/-- Witness for C2: two cases and the two bang-for-buck variant sets yield run
ids 0..3 in case-major order. -/
theorem C2_witness :
    (ScriptGen.generateExhaustiveLines
        [("g".toList, "a.txt".toList, "2".toList), ("g".toList, "b.txt".toList, "4".toList)]
        [["-b".toList, "1".toList], ["-b".toList, "0".toList]]).map ScriptGen.ExLine.runId
      = List.range 4
    ∧ ∀ k : Nat, k < 4 →
        ∃ l : ScriptGen.ExLine,
          (ScriptGen.generateExhaustiveLines
            [("g".toList, "a.txt".toList, "2".toList), ("g".toList, "b.txt".toList, "4".toList)]
            [["-b".toList, "1".toList], ["-b".toList, "0".toList]])[k]? = some l
          ∧ l.runId = k
          ∧ ([("g".toList, "a.txt".toList, "2".toList),
              ("g".toList, "b.txt".toList, "4".toList)] : List ScriptGen.Case)[k / 2]? = some l.c
          ∧ ([["-b".toList, "1".toList], ["-b".toList, "0".toList]] : List (List Str))[k % 2]?
              = some l.addition :=
  C2_run_ids_exhaustive
    [("g".toList, "a.txt".toList, "2".toList), ("g".toList, "b.txt".toList, "4".toList)]
    [["-b".toList, "1".toList], ["-b".toList, "0".toList]] (by decide)

namespace ScriptGen

theorem stage_not_in_writeEvents (p : Str × Str) :
    ∀ (cases : List Case) (k : Nat), GenEvent.stageCase p ∉ writeEvents cases k := by
  intro cases
  induction cases with
  | nil => intro k h; simp [writeEvents] at h
  | cons c cs ih =>
    intro k h
    rcases List.mem_cons.mp h with h' | h'
    · cases h'
    · exact ih (k + 1) h'

theorem writeLine_not_in_prepare (i : Nat) (c : Case) (tn : Str) (pairs : List (Str × Str)) :
    GenEvent.writeLine i c ∉ prepareTestFolderEvents tn pairs := by
  intro h
  simp [prepareTestFolderEvents] at h

theorem writeEvents_length : ∀ (cases : List Case) (k : Nat),
    (writeEvents cases k).length = cases.length := by
  intro cases
  induction cases with
  | nil => intro k; rfl
  | cons c cs ih => intro k; simp [writeEvents, ih]

end ScriptGen

/-- Claim C4 counterexample: for one case, the descriptor line appears at
position 0 of the generation trace while the case's staging happens at
position 8; staging does not complete before the descriptor line is written,
refuting the claimed ordering. -/
theorem C4_counterexample_staging_after_write :
    ¬ (∀ (i j r : Nat) (c : ScriptGen.Case),
        (ScriptGen.generateNonExhaustiveTrace "simple".toList
            [("g".toList, "a.txt".toList, "2".toList)])[i]?
          = some (.writeLine r c) →
        (ScriptGen.generateNonExhaustiveTrace "simple".toList
            [("g".toList, "a.txt".toList, "2".toList)])[j]?
          = some (.stageCase (c.1, c.2.1)) →
        j < i) := by
  intro h
  have h8 := h 0 8 0 ("g".toList, "a.txt".toList, "2".toList) (by decide) (by decide)
  exact absurd h8 (by decide)

/-- Claim C4 (amended): the ordering is the reverse of the claimed one: every
descriptor line is written to the run-file before any staging occurs; staging
happens afterwards, inside `_prepare_test_folder`, after the completed
run-file has been copied into the run package. -/
theorem C4_descriptor_lines_precede_staging (testName : Str) (cases : List ScriptGen.Case)
    (i j r : Nat) (c : ScriptGen.Case) (p : Str × Str)
    (hi : (ScriptGen.generateNonExhaustiveTrace testName cases)[i]? = some (.writeLine r c))
    (hj : (ScriptGen.generateNonExhaustiveTrace testName cases)[j]? = some (.stageCase p)) :
    i < j := by
  have hiA : i < (ScriptGen.writeEvents cases 0).length := by
    by_contra hge
    push_neg at hge
    rw [ScriptGen.generateNonExhaustiveTrace, List.getElem?_append_right hge] at hi
    exact ScriptGen.writeLine_not_in_prepare r c _ _ (List.getElem?_mem hi)
  have hjB : (ScriptGen.writeEvents cases 0).length ≤ j := by
    by_contra hlt
    push_neg at hlt
    rw [ScriptGen.generateNonExhaustiveTrace, List.getElem?_append, if_pos hlt] at hj
    exact ScriptGen.stage_not_in_writeEvents p cases 0 (List.getElem?_mem hj)
  omega

/-- Witness for C4: the concrete one-case trace has the descriptor line at
index 0 and the staging at index 8, and 0 < 8 follows from the theorem. -/
theorem C4_witness :
    (ScriptGen.generateNonExhaustiveTrace "simple".toList
        [("g".toList, "a.txt".toList, "2".toList)])[0]?
      = some (.writeLine 0 ("g".toList, "a.txt".toList, "2".toList))
    ∧ (ScriptGen.generateNonExhaustiveTrace "simple".toList
        [("g".toList, "a.txt".toList, "2".toList)])[8]?
      = some (.stageCase ("g".toList, "a.txt".toList))
    ∧ (0 : Nat) < 8 :=
  ⟨by decide, by decide,
    C4_descriptor_lines_precede_staging "simple".toList
      [("g".toList, "a.txt".toList, "2".toList)] 0 8 0
      ("g".toList, "a.txt".toList, "2".toList) ("g".toList, "a.txt".toList)
      (by decide) (by decide)⟩

/-- Claim C7 counterexample: the exclusion substrings are not caller-supplied.
Against the spec-worded discovery with caller-supplied exclusions
`["_100_"]`, the source behaves differently on a folder containing `_102_`:
the source also excludes `run_102_y` although the caller's set does not
mention it. -/
theorem C7_counterexample_not_caller_supplied :
    ScriptGen.collectExhaustiveCases
        [("run_100_x".toList, ["a.txt".toList]), ("run_050_x".toList, ["b.txt".toList]),
         ("run_102_y".toList, ["c.txt".toList])] ["2".toList]
      ≠ ScriptGen.collectCasesSpecWorded ["_100_".toList]
        [("run_100_x".toList, ["a.txt".toList]), ("run_050_x".toList, ["b.txt".toList]),
         ("run_102_y".toList, ["c.txt".toList])] ["2".toList] := by
  decide

/-- Claim C7 (amended): directory-walk case discovery excludes every group
whose name contains one of the FIXED substrings `_100_`, `_102_` (not a
caller-supplied set) and keeps only files with the `.txt` extension, each
paired with every requested discretization; in particular, for groups
`run_100_x` and `run_050_x` only cases from `run_050_x` are returned (see the
witness). -/
theorem C7_fixed_exclusion_set (folders : List (Str × List Str)) (discs : List Str)
    (cases : List ScriptGen.Case)
    (h : ScriptGen.collectExhaustiveCases folders discs = .ok cases) :
    cases ≠ []
    ∧ ∀ cse ∈ cases,
        ScriptGen.containsSub cse.1 "_100_".toList = false
        ∧ ScriptGen.containsSub cse.1 "_102_".toList = false
        ∧ endsWithL cse.2.1 ".txt".toList = true
        ∧ cse.2.2 ∈ discs
        ∧ ∃ fd ∈ folders, fd.1 = cse.1 ∧ cse.2.1 ∈ fd.2 := by
  simp only [ScriptGen.collectExhaustiveCases] at h
  split at h
  · cases h
  · rename_i hne
    injection h with h
    subst h
    refine ⟨hne, ?_⟩
    intro cse hc
    obtain ⟨fd, hfd, hmem⟩ := List.mem_flatMap.mp hc
    by_cases hexc : (ScriptGen.containsSub fd.1 "_100_".toList
        || ScriptGen.containsSub fd.1 "_102_".toList) = true
    · rw [if_pos hexc] at hmem
      cases hmem
    · rw [if_neg hexc] at hmem
      rw [Bool.or_eq_true] at hexc
      push_neg at hexc
      obtain ⟨h100, h102⟩ := hexc
      have h100' : ScriptGen.containsSub fd.1 "_100_".toList = false := by
        simpa using h100
      have h102' : ScriptGen.containsSub fd.1 "_102_".toList = false := by
        simpa using h102
      obtain ⟨f, hf, hmem2⟩ := List.mem_flatMap.mp hmem
      by_cases htxt : endsWithL f ".txt".toList = true
      · rw [if_pos htxt] at hmem2
        obtain ⟨d, hd, heq⟩ := List.mem_map.mp hmem2
        rw [← heq]
        exact ⟨h100', h102', htxt, hd, fd, hfd, rfl, hf⟩
      · rw [if_neg htxt] at hmem2
        cases hmem2

/-- Witness for C7, which is exactly the spec's own example: groups
`run_100_x` and `run_050_x` with the fixed exclusions yield only the
`run_050_x` case. -/
theorem C7_witness :
    ([("run_050_x".toList, "b.txt".toList, "2".toList)] : List ScriptGen.Case) ≠ []
    ∧ ∀ cse ∈ ([("run_050_x".toList, "b.txt".toList, "2".toList)] : List ScriptGen.Case),
        ScriptGen.containsSub cse.1 "_100_".toList = false
        ∧ ScriptGen.containsSub cse.1 "_102_".toList = false
        ∧ endsWithL cse.2.1 ".txt".toList = true
        ∧ cse.2.2 ∈ (["2".toList] : List Str)
        ∧ ∃ fd ∈ [("run_100_x".toList, ["a.txt".toList]),
            ("run_050_x".toList, ["b.txt".toList])], fd.1 = cse.1 ∧ cse.2.1 ∈ fd.2 :=
  C7_fixed_exclusion_set
    [("run_100_x".toList, ["a.txt".toList]), ("run_050_x".toList, ["b.txt".toList])]
    ["2".toList] [("run_050_x".toList, "b.txt".toList, "2".toList)] (by decide)

/-- Claim C10: staging deduplicates instance files: the list of (group, file)
pairs staged into the run package has no duplicates, contains exactly the
pairs occurring in the case list, and the generation trace stages each such
pair exactly once, even when the same instance appears in several cases with
different discretization counts. -/
theorem C10_staging_deduplicates (testName : Str) (cases : List ScriptGen.Case) :
    (ScriptGen.getFolderAndFileNames cases).Nodup
    ∧ (∀ p : Str × Str,
        p ∈ ScriptGen.getFolderAndFileNames cases
          ↔ p ∈ cases.map (fun cse => (cse.1, cse.2.1)))
    ∧ ∀ p ∈ ScriptGen.getFolderAndFileNames cases,
        (ScriptGen.generateNonExhaustiveTrace testName cases).count (.stageCase p) = 1 := by
  refine ⟨List.nodup_dedup _, fun p => List.mem_dedup, ?_⟩
  intro p hp
  have hinj : Function.Injective ScriptGen.GenEvent.stageCase := by
    intro a b h
    injection h
  have hzero : ∀ k, (ScriptGen.writeEvents cases k).count (ScriptGen.GenEvent.stageCase p) = 0 :=
    fun k => List.count_eq_zero.mpr (ScriptGen.stage_not_in_writeEvents p cases k)
  have hnd : (ScriptGen.getFolderAndFileNames cases).Nodup := List.nodup_dedup _
  have hone := List.count_eq_one_of_mem hnd hp
  rw [ScriptGen.generateNonExhaustiveTrace, List.count_append, hzero]
  rw [ScriptGen.prepareTestFolderEvents]
  repeat rw [List.count_append]
  rw [List.count_map_of_injective _ ScriptGen.GenEvent.stageCase hinj]
  rw [hone]
  have z1 : List.count (ScriptGen.GenEvent.stageCase p)
      [ScriptGen.GenEvent.makeRunDir, ScriptGen.GenEvent.copyJar] = 0 :=
    List.count_eq_zero.mpr (by simp)
  have z2 : List.count (ScriptGen.GenEvent.stageCase p)
      [ScriptGen.GenEvent.copyFile (testName ++ "_runs.txt".toList),
       ScriptGen.GenEvent.copyFile "submit-batch.sh".toList,
       ScriptGen.GenEvent.copyFile "slurm-batch-job.sh".toList] = 0 :=
    List.count_eq_zero.mpr (by simp)
  have z3 : List.count (ScriptGen.GenEvent.stageCase p)
      [ScriptGen.GenEvent.removeRunsFile, ScriptGen.GenEvent.makeDataDir] = 0 :=
    List.count_eq_zero.mpr (by simp)
  have z4 : List.count (ScriptGen.GenEvent.stageCase p)
      [ScriptGen.GenEvent.makeOutDir "output".toList,
       ScriptGen.GenEvent.makeOutDir "results".toList] = 0 :=
    List.count_eq_zero.mpr (by simp)
  rw [z1, z2, z3, z4]

/-- Claim C9: for every configuration whose prechecks pass, `Controller.run`
returns right after building the base command: the result carries the base
command and an empty list of solver invocations, for every setting of the
five run-set flags — so the "no batch run chosen" check and the five
batch-execution branches (which live below the unconditional `return`) are
unreachable and no solver subprocess is ever invoked by this entry point.
The second conjunct shows the contrast: the dead block below the `return`
would have raised "no batch run chosen" when no flag is set. -/
theorem C9_run_returns_early (cfg : BatchRunner.Config) (env : BatchRunner.Env) (p : String)
    (hjar : env.jarBuilt = true)
    (hdata : env.dataDirOk = true)
    (hpath : (match cfg.cplexLibPath with
      | some q => some q
      | none => env.guessedCplexPath) = some p)
    (hdir : env.cplexDirOk = true)
    (hcases : BatchRunner.collectCasesToRun env.walk ≠ []) :
    BatchRunner.run cfg env
      = .ok ⟨["java", "-Xms32m", "-Xmx32g", "-Djava.library.path=" ++ p, "-jar", cfg.jarPath],
          []⟩
    ∧ (cfg.budget = false → cfg.mean = false → cfg.parallel = false → cfg.quality = false →
        cfg.timeComparison = false →
        BatchRunner.runAfterReturn cfg
          ["java", "-Xms32m", "-Xmx32g", "-Djava.library.path=" ++ p, "-jar", cfg.jarPath]
          = .error .noBatchChosen) := by
  constructor
  · simp [BatchRunner.run, hjar, hdata, hdir, hpath, hcases]
  · intro h1 h2 h3 h4 h5
    simp [BatchRunner.runAfterReturn, h1, h2, h3, h4, h5]

/-- Witness for C9 at a concrete configuration with all run-set flags off. -/
theorem C9_witness :
    BatchRunner.run
        ⟨false, false, false, false, false, "uber.jar", some "/cplex", [], []⟩
        ⟨none, true, true, true, [("data", ["i.txt"])]⟩
      = .ok ⟨["java", "-Xms32m", "-Xmx32g", "-Djava.library.path=" ++ "/cplex", "-jar",
          "uber.jar"], []⟩
    ∧ (false = false → false = false → false = false → false = false → false = false →
        BatchRunner.runAfterReturn
          ⟨false, false, false, false, false, "uber.jar", some "/cplex", [], []⟩
          ["java", "-Xms32m", "-Xmx32g", "-Djava.library.path=" ++ "/cplex", "-jar", "uber.jar"]
          = .error .noBatchChosen) :=
  C9_run_returns_early
    ⟨false, false, false, false, false, "uber.jar", some "/cplex", [], []⟩
    ⟨none, true, true, true, [("data", ["i.txt"])]⟩ "/cplex"
    rfl rfl rfl rfl (by decide)

namespace Queries

theorem gen_optimal_eq (t d : Nat) :
    generateExhaustiveTableCountQuery "optimal" t d
      = "select count(*) from exhaustive_dssr_bit_based_cycles where "
        ++ "cast(number_of_discretizations as integer) = " ++ toString d ++ " and "
        ++ "instance_path like \"%" ++ toString t ++ "%\" and "
        ++ "cast(solution_time_in_seconds as decimal(16,2)) < 3600.0" := by
  simp only [generateExhaustiveTableCountQuery]
  rw [if_neg (show ¬("optimal" : String) = "timed-out" by decide), if_pos trivial]

theorem gen_timedout_eq (t d : Nat) :
    generateExhaustiveTableCountQuery "timed-out" t d
      = "select count(*) from exhaustive_dssr_bit_based_cycles where "
        ++ "cast(number_of_discretizations as integer) = " ++ toString d ++ " and "
        ++ "instance_path like \"%" ++ toString t ++ "%\" and "
        ++ "cast(solution_time_in_seconds as decimal(16,2)) >= 3600.0" := by
  simp only [generateExhaustiveTableCountQuery]
  rw [if_pos trivial, if_neg (show ¬("timed-out" : String) = "optimal" by decide)]

theorem gen_other_eq (cat : String) (t d : Nat) (h1 : ¬ cat = "optimal")
    (h2 : ¬ cat = "timed-out") :
    generateExhaustiveTableCountQuery cat t d
      = "select count(*) from exhaustive_dssr_bit_based_cycles where "
        ++ "cast(number_of_discretizations as integer) = " ++ toString d ++ " and "
        ++ "instance_path like \"%" ++ toString t ++ "%\" and " := by
  simp only [generateExhaustiveTableCountQuery]
  rw [if_neg h2, if_neg h1]

theorem base_contains_filters (t d : Nat) (tl : String) :
    containsStr
      ("select count(*) from exhaustive_dssr_bit_based_cycles where "
        ++ "cast(number_of_discretizations as integer) = " ++ toString d ++ " and "
        ++ "instance_path like \"%" ++ toString t ++ "%\" and " ++ tl)
      ("cast(number_of_discretizations as integer) = " ++ toString d ++ " and ")
    ∧ containsStr
      ("select count(*) from exhaustive_dssr_bit_based_cycles where "
        ++ "cast(number_of_discretizations as integer) = " ++ toString d ++ " and "
        ++ "instance_path like \"%" ++ toString t ++ "%\" and " ++ tl)
      ("instance_path like \"%" ++ toString t ++ "%\"") := by
  constructor
  · refine ⟨("select count(*) from exhaustive_dssr_bit_based_cycles where " : String).data,
      ("instance_path like \"%" : String).data ++ (toString t).data
        ++ ("%\" and " : String).data ++ tl.data, ?_⟩
    simp [String.data_append, List.append_assoc]
  · refine ⟨("select count(*) from exhaustive_dssr_bit_based_cycles where " : String).data
        ++ ("cast(number_of_discretizations as integer) = " : String).data
        ++ (toString d).data ++ (" and " : String).data,
      (" and " : String).data ++ tl.data, ?_⟩
    simp [String.data_append, List.append_assoc]

theorem base_contains_filters' (t d : Nat) :
    containsStr
      ("select count(*) from exhaustive_dssr_bit_based_cycles where "
        ++ "cast(number_of_discretizations as integer) = " ++ toString d ++ " and "
        ++ "instance_path like \"%" ++ toString t ++ "%\" and ")
      ("cast(number_of_discretizations as integer) = " ++ toString d ++ " and ")
    ∧ containsStr
      ("select count(*) from exhaustive_dssr_bit_based_cycles where "
        ++ "cast(number_of_discretizations as integer) = " ++ toString d ++ " and "
        ++ "instance_path like \"%" ++ toString t ++ "%\" and ")
      ("instance_path like \"%" ++ toString t ++ "%\"") := by
  have h := base_contains_filters t d ""
  have he : ("select count(*) from exhaustive_dssr_bit_based_cycles where "
        ++ "cast(number_of_discretizations as integer) = " ++ toString d ++ " and "
        ++ "instance_path like \"%" ++ toString t ++ "%\" and " ++ ("" : String))
      = "select count(*) from exhaustive_dssr_bit_based_cycles where "
        ++ "cast(number_of_discretizations as integer) = " ++ toString d ++ " and "
        ++ "instance_path like \"%" ++ toString t ++ "%\" and " := String.append_empty _
  rwa [he] at h

theorem endsWithStr_eq_of_len {hay a b : String} (ha : endsWithStr hay a)
    (hb : endsWithStr hay b) (hlen : a.data.length = b.data.length) : a.data = b.data := by
  obtain ⟨p, hp⟩ := ha
  obtain ⟨q, hq⟩ := hb
  rw [hp] at hq
  exact (List.append_inj' hq hlen).2

set_option maxRecDepth 8000 in
theorem optimal_ends_00 (t d : Nat) :
    endsWithStr (generateExhaustiveTableCountQuery "optimal" t d) "00.0" := by
  refine ⟨("select count(*) from exhaustive_dssr_bit_based_cycles where " : String).data
      ++ ("cast(number_of_discretizations as integer) = " : String).data
      ++ (toString d).data ++ (" and " : String).data
      ++ ("instance_path like \"%" : String).data ++ (toString t).data
      ++ ("%\" and " : String).data
      ++ ("cast(solution_time_in_seconds as decimal(16,2)) < 36" : String).data, ?_⟩
  rw [gen_optimal_eq]
  simp [String.data_append, List.append_assoc]

set_option maxRecDepth 8000 in
theorem timedout_ends_00 (t d : Nat) :
    endsWithStr (generateExhaustiveTableCountQuery "timed-out" t d) "00.0" := by
  refine ⟨("select count(*) from exhaustive_dssr_bit_based_cycles where " : String).data
      ++ ("cast(number_of_discretizations as integer) = " : String).data
      ++ (toString d).data ++ (" and " : String).data
      ++ ("instance_path like \"%" : String).data ++ (toString t).data
      ++ ("%\" and " : String).data
      ++ ("cast(solution_time_in_seconds as decimal(16,2)) >= 36" : String).data, ?_⟩
  rw [gen_timedout_eq]
  simp [String.data_append, List.append_assoc]

theorem other_ends_and (cat : String) (t d : Nat) (h1 : ¬ cat = "optimal")
    (h2 : ¬ cat = "timed-out") :
    endsWithStr (generateExhaustiveTableCountQuery cat t d) "and " := by
  refine ⟨("select count(*) from exhaustive_dssr_bit_based_cycles where " : String).data
      ++ ("cast(number_of_discretizations as integer) = " : String).data
      ++ (toString d).data ++ (" and " : String).data
      ++ ("instance_path like \"%" : String).data ++ (toString t).data
      ++ ("%\" " : String).data, ?_⟩
  rw [gen_other_eq cat t d h1 h2]
  simp [String.data_append, List.append_assoc]

theorem optimal_no_dangling (t d : Nat) :
    noDanglingAnd (generateExhaustiveTableCountQuery "optimal" t d) := by
  intro hand
  have := endsWithStr_eq_of_len (optimal_ends_00 t d) hand (by decide)
  exact absurd this (by decide)

theorem timedout_no_dangling (t d : Nat) :
    noDanglingAnd (generateExhaustiveTableCountQuery "timed-out" t d) := by
  intro hand
  have := endsWithStr_eq_of_len (timedout_ends_00 t d) hand (by decide)
  exact absurd this (by decide)

end Queries

/-- Claim C8 counterexample: for the category `infeasible` the builder does
not produce a well-formed count query: the emitted text stops at a dangling
`and` (no category predicate is appended, because only `optimal` and
`timed-out` have branches in the source). -/
theorem C8_counterexample_infeasible_dangling_and :
    ¬ Queries.noDanglingAnd (Queries.generateExhaustiveTableCountQuery "infeasible" 21 2) :=
  fun h => h (Queries.other_ends_and "infeasible" 21 2 (by decide) (by decide))

/-- Claim C8 (amended): for every discretization level and instance-group
filter, each of the three categories yields a query constraining the
discretization and the instance group; for `optimal` and `timed-out` the
query is well formed (no dangling `and`) and ends with the category's time
predicate (`< 3600.0` below the limit, `>= 3600.0` at or above it); for
`infeasible` (which has no branch in the source) no category predicate is
appended and the query ends with a dangling `and`. -/
theorem C8_count_query_builder (t d : Nat) :
    (∀ cat ∈ (["optimal", "infeasible", "timed-out"] : List String),
      Queries.containsStr (Queries.generateExhaustiveTableCountQuery cat t d)
          ("cast(number_of_discretizations as integer) = " ++ toString d ++ " and ")
      ∧ Queries.containsStr (Queries.generateExhaustiveTableCountQuery cat t d)
          ("instance_path like \"%" ++ toString t ++ "%\""))
    ∧ Queries.endsWithStr (Queries.generateExhaustiveTableCountQuery "optimal" t d)
        "cast(solution_time_in_seconds as decimal(16,2)) < 3600.0"
    ∧ Queries.endsWithStr (Queries.generateExhaustiveTableCountQuery "timed-out" t d)
        "cast(solution_time_in_seconds as decimal(16,2)) >= 3600.0"
    ∧ Queries.noDanglingAnd (Queries.generateExhaustiveTableCountQuery "optimal" t d)
    ∧ Queries.noDanglingAnd (Queries.generateExhaustiveTableCountQuery "timed-out" t d)
    ∧ Queries.endsWithStr (Queries.generateExhaustiveTableCountQuery "infeasible" t d)
        "and " := by
  refine ⟨?_, ?_, ?_, Queries.optimal_no_dangling t d, Queries.timedout_no_dangling t d,
    Queries.other_ends_and "infeasible" t d (by decide) (by decide)⟩
  · intro cat hcat
    simp only [List.mem_cons, List.not_mem_nil, or_false] at hcat
    rcases hcat with h | h | h
    · rw [h, Queries.gen_optimal_eq]
      exact Queries.base_contains_filters t d _
    · rw [h, Queries.gen_other_eq "infeasible" t d (by decide) (by decide)]
      exact Queries.base_contains_filters' t d
    · rw [h, Queries.gen_timedout_eq]
      exact Queries.base_contains_filters t d _
  · rw [Queries.gen_optimal_eq]
    exact ⟨_, rfl⟩
  · rw [Queries.gen_timedout_eq]
    exact ⟨_, rfl⟩

